import Mathlib

/-
Verification development for the llm-tracker ingestion pipeline.

Shallow embedding of:
  * the Store (`LLMTrackerDatabase` in desktop-app/database.js together with
    database-schema.sql, including the triggers `update_conversation_stats`
    and `update_system_prompt_occurrence`),
  * the Ingestion Server (`WebSocketServer` in desktop-app/websocket-server.js),
  * the Bridge Client / Transport Framer (`NativeMessagingHost` in
    native-host/host.js).

Conventions of the embedding:
  * JS values that may be absent are `Option` values; `none` models the JS
    `undefined` (an absent object field).
  * better-sqlite3 statement parameters may be numbers, strings, bigints,
    buffers or null; binding a JS `undefined` throws a `TypeError`.  Raw
    (non-defaulted) parameters are therefore pattern-matched: `none` yields
    `StoreErr.bindUndefined`.
  * better-sqlite3 compiles SQLite with foreign-key enforcement on by
    default, so FOREIGN KEY constraints of database-schema.sql are checked.
  * `StoreErr` collects every way a store operation can throw (binding
    TypeError, UNIQUE / NOT NULL / FOREIGN KEY SqliteError); the spec calls
    all of them `StoreError`.
  * SQL REAL columns never written by the code (e.g. total_cost) are omitted;
    numeric values are modeled as `Int`.
-/

namespace LLMTracker

/-- SQL storage values as far as the embedded operations need them. -/
inductive SqlVal where
  | nullV
  | intV (n : Int)
  | textV (s : String)
deriving Repr, DecidableEq

/-- JS truthiness filter for an optional string: `undefined` and `""` are falsy. -/
def jsTruthyStr : Option String → Option String
  | some s => if s = "" then none else some s
  | none => none

/-- JS truthiness filter for an optional number: `undefined` and `0` are falsy. -/
def jsTruthyInt : Option Int → Option Int
  | some n => if n = 0 then none else some n
  | none => none

/-- The JS expression `x || d` for a string default. -/
def jsOrStr (x : Option String) (d : String) : String := (jsTruthyStr x).getD d

/-- The JS expression `x || d` for a numeric default. -/
def jsOrInt (x : Option Int) (d : Int) : Int := (jsTruthyInt x).getD d

/-- The JS expression `x || null` bound as a SQL parameter (string case). -/
def jsOrNullStr (x : Option String) : SqlVal :=
  match jsTruthyStr x with
  | some s => .textV s
  | none => .nullV

/-- The JS expression `x || null` bound as a SQL parameter (numeric case). -/
def jsOrNullInt (x : Option Int) : SqlVal :=
  match jsTruthyInt x with
  | some n => .intV n
  | none => .nullV

/-- The JS expression `a || b || null` bound as a SQL parameter. -/
def jsOrNull2Str (a b : Option String) : SqlVal :=
  match jsTruthyStr a with
  | some s => .textV s
  | none => jsOrNullStr b

/-- The JS expression `a || b` where `b` may itself be `undefined`. -/
def jsOr2Str (a b : Option String) : Option String :=
  match jsTruthyStr a with
  | some s => some s
  | none => b

/-- SQL `COALESCE(x, 0)` on a bound value. -/
def coalesceInt0 : SqlVal → Int
  | .intV n => n
  | _ => 0

/-- Ways a store operation throws: a better-sqlite3 binding `TypeError` for a
JS `undefined` argument, or a `SqliteError` for a violated constraint.  The
spec's `StoreError` covers all of them. -/
inductive StoreErr where
  | bindUndefined
  | uniqueViolation
  | notNullViolation
  | fkViolation
deriving Repr, DecidableEq

/-- The `err.message` string forwarded in error notifications. -/
def StoreErr.message : StoreErr → String
  | .bindUndefined => "SQLite3 can only bind numbers, strings, bigints, buffers, and null"
  | .uniqueViolation => "UNIQUE constraint failed"
  | .notNullViolation => "NOT NULL constraint failed"
  | .fkViolation => "FOREIGN KEY constraint failed"

def emptyObj : String := "\x7b\x7d"

def emptyArr : String := "[]"

def activeStatus : String := "active"

/-- A row of the `conversations` table (the columns the embedded code reads
or writes; NOT NULL columns are plain, nullable ones are `SqlVal`). -/
structure ConvRow where
  id : String
  platform : String
  platform_conversation_id : SqlVal
  title : SqlVal
  started_at : Int
  last_activity : Int
  message_count : Int
  total_tokens : Int
  model_used : SqlVal
  status : String
  metadata : String
  created_at : Int
  updated_at : Int
deriving Repr, DecidableEq

/-- A row of the `messages` table. -/
structure MsgRow where
  id : String
  conversation_id : String
  timestamp : Int
  role : String
  visible_content : String
  visible_to_user : Int
  message_position : SqlVal
  is_edited : Int
  is_regenerated : Int
  tokens_prompt : SqlVal
  tokens_completion : SqlVal
  tokens_total : SqlVal
  time_to_first_token_ms : SqlVal
  total_generation_time_ms : SqlVal
  attachments : String
deriving Repr, DecidableEq

/-- A row of the `api_captures` table. -/
structure CapRow where
  id : String
  message_id : String
  timestamp : Int
  request_url : String
  request_method : SqlVal
  request_headers : String
  request_body : String
  response_status : SqlVal
  response_headers : String
  response_body : String
  raw_response : SqlVal
  model : SqlVal
  temperature : SqlVal
  max_tokens : SqlVal
  is_streaming : Int
  platform : SqlVal
deriving Repr, DecidableEq

/-- A row of the `system_prompts` table. -/
structure PromptRow where
  id : String
  platform : String
  prompt_text : String
  prompt_hash : String
  first_seen : Int
  last_seen : Int
  occurrence_count : Int
  conversation_ids : String
  created_at : Int
  updated_at : Int
deriving Repr, DecidableEq

/-- A row of the `streaming_chunks` table. -/
structure ChunkRow where
  id : String
  message_id : String
  chunk_index : Int
  timestamp : Int
  content : SqlVal
  delta_time_ms : SqlVal
deriving Repr, DecidableEq

/-- The SQLite database state owned by the Store. -/
structure DB where
  conversations : List ConvRow
  messages : List MsgRow
  api_captures : List CapRow
  system_prompts : List PromptRow
  streaming_chunks : List ChunkRow
deriving Repr, DecidableEq

def DB.empty : DB := ⟨[], [], [], [], []⟩

/-- The JS argument object of `upsertConversation` (absent fields are `none`;
`metadata` is modeled by the string `JSON.stringify` would produce for it). -/
structure ConvData where
  id : Option String := none
  platform : Option String := none
  platform_conversation_id : Option String := none
  conversation_id : Option String := none
  started_at : Option Int := none
  last_activity : Option Int := none
  title : Option String := none
  message_count : Option Int := none
  total_tokens : Option Int := none
  model_used : Option String := none
  metadata : Option String := none
deriving Repr, DecidableEq

/-- `LLMTrackerDatabase.upsertConversation`: INSERT with
`ON CONFLICT(id) DO UPDATE SET last_activity, message_count, total_tokens,
metadata = excluded values`.  The parameters `data.id`, `data.platform`,
`data.started_at`, `data.last_activity` are bound raw (undefined throws);
the rest go through `|| null` / `|| 0` / `JSON.stringify(… || ...)`.
The conflicting row is unique by the `id` PRIMARY KEY, so the map over
id-matching rows updates exactly the row SQLite would. -/
def upsertConversation (d : ConvData) (now : Int) (db : DB) : Except StoreErr DB :=
  match d.id, d.platform, d.started_at, d.last_activity with
  | some cid, some pf, some sa, some la =>
    let mc := jsOrInt d.message_count 0
    let tt := jsOrInt d.total_tokens 0
    let md := d.metadata.getD emptyObj
    if ∃ r ∈ db.conversations, r.id = cid then
      .ok { db with conversations := db.conversations.map (fun r =>
        if r.id = cid then
          { r with last_activity := la, message_count := mc, total_tokens := tt,
                   metadata := md }
        else r) }
    else
      .ok { db with conversations := db.conversations ++ [{
        id := cid
        platform := pf
        platform_conversation_id := jsOrNull2Str d.platform_conversation_id d.conversation_id
        title := jsOrNullStr d.title
        started_at := sa
        last_activity := la
        message_count := mc
        total_tokens := tt
        model_used := jsOrNullStr d.model_used
        status := activeStatus
        metadata := md
        created_at := now
        updated_at := now }] }
  | _, _, _, _ => .error .bindUndefined

/-- The JS argument object of `insertMessage`. -/
structure MsgData where
  id : Option String := none
  conversation_id : Option String := none
  timestamp : Option Int := none
  role : Option String := none
  content : Option String := none
  visible_content : Option String := none
  visible_to_user : Option Bool := none
  message_position : Option Int := none
  edited : Option Bool := none
  is_edited : Option Bool := none
  regenerated : Option Bool := none
  is_regenerated : Option Bool := none
  tokens_prompt : Option Int := none
  tokens_completion : Option Int := none
  tokens_total : Option Int := none
  time_to_first_token_ms : Option Int := none
  total_generation_time_ms : Option Int := none
  attachments : Option String := none
deriving Repr, DecidableEq

/-- `LLMTrackerDatabase.insertMessage`: plain INSERT into `messages`; the
schema trigger `update_conversation_stats` (AFTER INSERT ON messages) then
updates the owning conversation row in the same statement:
`message_count + 1`, `total_tokens + COALESCE(NEW.tokens_total, 0)`,
`last_activity = NEW.timestamp`, `updated_at = now`.  Raw-bound parameters:
id, conversation_id, timestamp, role, and `content || visible_content`. -/
def insertMessage (d : MsgData) (now : Int) (db : DB) : Except StoreErr DB :=
  match d.id, d.conversation_id, d.timestamp, d.role, jsOr2Str d.content d.visible_content with
  | some mid, some convId, some ts, some role, some content =>
    if ∃ m ∈ db.messages, m.id = mid then .error .uniqueViolation
    else if ∃ c ∈ db.conversations, c.id = convId then
      let row : MsgRow := {
        id := mid
        conversation_id := convId
        timestamp := ts
        role := role
        visible_content := content
        visible_to_user := if d.visible_to_user = some false then 0 else 1
        message_position := jsOrNullInt d.message_position
        is_edited := if d.edited.getD false || d.is_edited.getD false then 1 else 0
        is_regenerated := if d.regenerated.getD false || d.is_regenerated.getD false then 1 else 0
        tokens_prompt := jsOrNullInt d.tokens_prompt
        tokens_completion := jsOrNullInt d.tokens_completion
        tokens_total := jsOrNullInt d.tokens_total
        time_to_first_token_ms := jsOrNullInt d.time_to_first_token_ms
        total_generation_time_ms := jsOrNullInt d.total_generation_time_ms
        attachments := d.attachments.getD emptyArr }
      .ok { db with
        messages := db.messages ++ [row]
        conversations := db.conversations.map (fun c =>
          if c.id = convId then
            { c with message_count := c.message_count + 1,
                     total_tokens := c.total_tokens + coalesceInt0 (jsOrNullInt d.tokens_total),
                     last_activity := ts,
                     updated_at := now }
          else c) }
    else .error .fkViolation
  | _, _, _, _, _ => .error .bindUndefined

/-- The JS argument object of `insertApiCapture`. -/
structure CapData where
  id : Option String := none
  message_id : Option String := none
  timestamp : Option Int := none
  request_url : Option String := none
  request_method : Option String := none
  request_headers : Option String := none
  request_body : Option String := none
  response_status : Option Int := none
  response_headers : Option String := none
  response_body : Option String := none
  raw_response : Option String := none
  model : Option String := none
  temperature : Option Int := none
  max_tokens : Option Int := none
  stream : Option Bool := none
  is_streaming : Option Bool := none
  platform : Option String := none
deriving Repr, DecidableEq

/-- `LLMTrackerDatabase.insertApiCapture`: plain INSERT into `api_captures`.
Raw-bound: id, message_id, timestamp.  `request_url` is NOT NULL in the
schema but bound as `data.request_url || null`; `message_id` carries a
FOREIGN KEY to `messages(id)` which better-sqlite3 enforces. -/
def insertApiCapture (d : CapData) (db : DB) : Except StoreErr DB :=
  match d.id, d.message_id, d.timestamp with
  | some cid, some mid, some ts =>
    if ∃ c ∈ db.api_captures, c.id = cid then .error .uniqueViolation
    else
      match jsOrNullStr d.request_url with
      | .textV u =>
        if ∃ m ∈ db.messages, m.id = mid then
          .ok { db with api_captures := db.api_captures ++ [{
            id := cid
            message_id := mid
            timestamp := ts
            request_url := u
            request_method := jsOrNullStr d.request_method
            request_headers := d.request_headers.getD emptyObj
            request_body := d.request_body.getD emptyObj
            response_status := jsOrNullInt d.response_status
            response_headers := d.response_headers.getD emptyObj
            response_body := d.response_body.getD emptyObj
            raw_response := jsOrNullStr d.raw_response
            model := jsOrNullStr d.model
            temperature := jsOrNullInt d.temperature
            max_tokens := jsOrNullInt d.max_tokens
            is_streaming := if d.stream.getD false || d.is_streaming.getD false then 1 else 0
            platform := jsOrNullStr d.platform }] }
        else .error .fkViolation
      | _ => .error .notNullViolation
  | _, _, _ => .error .bindUndefined

/-- The JS argument object of `upsertSystemPrompt`. -/
structure PromptData where
  id : Option String := none
  platform : Option String := none
  prompt_text : Option String := none
  first_seen : Option Int := none
  last_seen : Option Int := none
  conversation_ids : Option String := none
deriving Repr, DecidableEq

/-- SHA-256 hex digest of the prompt text (`crypto.createHash('sha256')`).
Modeled as an injective content hash; the identity function is adequate
because the embedded code only ever compares hashes of texts for equality,
and the claims quantify over texts, not over hash collisions. -/
def sha256Hex (s : String) : String := s

/-- `LLMTrackerDatabase.upsertSystemPrompt`: hashes `data.prompt_text`
(`crypto` throws a TypeError on undefined), then INSERT with
`ON CONFLICT(prompt_hash) DO UPDATE SET last_seen = excluded.last_seen,
occurrence_count = occurrence_count + 1` (the unqualified
`occurrence_count` reads the existing row).  On a genuine insert the schema
trigger `update_system_prompt_occurrence` (AFTER INSERT ON system_prompts)
bumps rows with the same hash and a different id — vacuous because
`prompt_hash` is UNIQUE, but modeled.  `id` falls back to a caller-supplied
fresh `uuid` (`crypto.randomUUID()`), `first_seen`/`last_seen` to `now`
(`Date.now()`).  The conflicting row is unique by the UNIQUE constraint on
`prompt_hash`, so the map over hash-matching rows updates exactly the row
SQLite would. -/
def upsertSystemPrompt (d : PromptData) (uuid : String) (now : Int) (db : DB) :
    Except StoreErr DB :=
  match d.prompt_text with
  | none => .error .bindUndefined
  | some txt =>
    match d.platform with
    | none => .error .bindUndefined
    | some pf =>
      let hash := sha256Hex txt
      let pid := jsOrStr d.id uuid
      let fs := jsOrInt d.first_seen now
      let ls := jsOrInt d.last_seen now
      if ∃ p ∈ db.system_prompts, p.prompt_hash = hash then
        .ok { db with system_prompts := db.system_prompts.map (fun p =>
          if p.prompt_hash = hash then
            { p with last_seen := ls, occurrence_count := p.occurrence_count + 1 }
          else p) }
      else if ∃ p ∈ db.system_prompts, p.id = pid then .error .uniqueViolation
      else
        let row : PromptRow := {
          id := pid
          platform := pf
          prompt_text := txt
          prompt_hash := hash
          first_seen := fs
          last_seen := ls
          occurrence_count := 1
          conversation_ids := d.conversation_ids.getD emptyArr
          created_at := now
          updated_at := now }
        .ok { db with system_prompts := (db.system_prompts ++ [row]).map (fun p =>
          if p.prompt_hash = hash ∧ p.id ≠ pid then
            { p with occurrence_count := p.occurrence_count + 1, last_seen := ls,
                     updated_at := now }
          else p) }

/-- The JS argument object of `insertStreamingChunk`. -/
structure ChunkData where
  id : Option String := none
  message_id : Option String := none
  chunk_index : Option Int := none
  timestamp : Option Int := none
  content : Option String := none
  delta_time_ms : Option Int := none
deriving Repr, DecidableEq

/-- `LLMTrackerDatabase.insertStreamingChunk`: plain INSERT into
`streaming_chunks`.  Raw-bound: id, message_id, chunk_index, timestamp;
`message_id` carries an enforced FOREIGN KEY to `messages(id)`. -/
def insertStreamingChunk (d : ChunkData) (db : DB) : Except StoreErr DB :=
  match d.id, d.message_id, d.chunk_index, d.timestamp with
  | some cid, some mid, some idx, some ts =>
    if ∃ c ∈ db.streaming_chunks, c.id = cid then .error .uniqueViolation
    else if ∃ m ∈ db.messages, m.id = mid then
      .ok { db with streaming_chunks := db.streaming_chunks ++ [{
        id := cid
        message_id := mid
        chunk_index := idx
        timestamp := ts
        content := jsOrNullStr d.content
        delta_time_ms := jsOrNullInt d.delta_time_ms }] }
    else .error .fkViolation
  | _, _, _, _ => .error .bindUndefined

/-- `LLMTrackerDatabase.getConversation`: `SELECT * FROM conversations WHERE
id = ?` via `stmt.get`, i.e. the first matching row or nothing. -/
def getConversation (db : DB) (cid : String) : Option ConvRow :=
  db.conversations.find? (fun r => r.id == cid)

/-
Ingestion Server (desktop-app/websocket-server.js).
-/

/-- The `data` field of a socket envelope: a JS object whose fields are all
optional.  This is the union of the fields the five handlers read. -/
structure EnvData where
  id : Option String := none
  conversation_id : Option String := none
  platform_conversation_id : Option String := none
  platform : Option String := none
  started_at : Option Int := none
  last_activity : Option Int := none
  title : Option String := none
  message_count : Option Int := none
  total_tokens : Option Int := none
  model_used : Option String := none
  metadata : Option String := none
  timestamp : Option Int := none
  role : Option String := none
  content : Option String := none
  visible_to_user : Option Bool := none
  message_position : Option Int := none
  edited : Option Bool := none
  regenerated : Option Bool := none
  tokens_prompt : Option Int := none
  tokens_completion : Option Int := none
  tokens_total : Option Int := none
  time_to_first_token_ms : Option Int := none
  total_generation_time_ms : Option Int := none
  attachments : Option String := none
  message_id : Option String := none
  request_url : Option String := none
  request_method : Option String := none
  request_headers : Option String := none
  request_body : Option String := none
  response_status : Option Int := none
  response_headers : Option String := none
  response_body : Option String := none
  raw_response : Option String := none
  model : Option String := none
  temperature : Option Int := none
  max_tokens : Option Int := none
  stream : Option Bool := none
  system_prompts : Option (List String) := none
  prompt_text : Option String := none
  first_seen : Option Int := none
  last_seen : Option Int := none
  chunk_index : Option Int := none
  delta_time_ms : Option Int := none

/-- A socket envelope `{type, id, data}` as decoded by `JSON.parse`. -/
structure Envelope where
  type : Option String := none
  id : Option String := none
  data : EnvData := {}

/-- Ambient values a `handleMessage` call draws from the runtime: the clock
(`Date.now()`, one call processes fast enough to see one value) and the
fresh ids `crypto.randomUUID()` returns (`uuid` for the single use per
handler, `uuidFn i` for the i-th iteration of the capture handler's
system-prompt loop). -/
structure Ctx where
  now : Int
  uuid : String
  uuidFn : Nat → String

/-- Messages the server can emit on a connection (`this.send`), plus the
`ws.close` action available on a socket, which `handleMessage` never
performs. -/
inductive OutMsg where
  | ack (messageId : Option String) (timestamp : Int)
  | errorOut (error : String) (timestamp : Int)
  | pong (timestamp : Int)
  | closeConn
deriving Repr, DecidableEq

def OutMsg.isAckB : OutMsg → Bool
  | .ack _ _ => true
  | _ => false

def OutMsg.isErrB : OutMsg → Bool
  | .errorOut _ _ => true
  | _ => false

/-- Result of a JS call that may throw after partially mutating the store:
the store state at the moment control returns, and the error if one was
thrown.  Each single SQL statement is atomic (autocommit), so a failing
`Except` operation leaves the state it was given. -/
def exceptToPair (db : DB) : Except StoreErr DB → DB × Option StoreErr
  | .ok db2 => (db2, none)
  | .error e => (db, some e)

/-- `WebSocketServer.handleConversation`: builds `conversationData` with
`Date.now()` fallbacks and calls `upsertConversation`. -/
def handleConversation (d : EnvData) (k : Ctx) (db : DB) : DB × Option StoreErr :=
  let cd : ConvData := {
    id := some (jsOrStr d.id k.uuid)
    platform := d.platform
    conversation_id := d.conversation_id
    started_at := some (jsOrInt d.started_at k.now)
    last_activity := some (jsOrInt d.last_activity k.now)
    title := d.title
    message_count := some (jsOrInt d.message_count 0)
    total_tokens := some (jsOrInt d.total_tokens 0)
    model_used := d.model_used
    metadata := d.metadata }
  exceptToPair db (upsertConversation cd k.now db)

/-- The `messageData` object `WebSocketServer.handleUserMessage` builds. -/
def msgDataOf (d : EnvData) (k : Ctx) : MsgData := {
  id := some (jsOrStr d.id k.uuid)
  conversation_id := d.conversation_id
  timestamp := some (jsOrInt d.timestamp k.now)
  role := d.role
  content := d.content
  visible_to_user := d.visible_to_user
  message_position := d.message_position
  edited := d.edited
  regenerated := d.regenerated
  tokens_prompt := d.tokens_prompt
  tokens_completion := d.tokens_completion
  tokens_total := d.tokens_total
  time_to_first_token_ms := d.time_to_first_token_ms
  total_generation_time_ms := d.total_generation_time_ms
  attachments := d.attachments }

/-- The argument of the follow-up `upsertConversation` call in
`handleUserMessage`: only `id`, `platform`, `last_activity = Date.now()` and
`message_count = (data.message_position || 0) + 1` are set; in particular
`started_at` is absent. -/
def followUpConvData (d : EnvData) (k : Ctx) : ConvData := {
  id := d.conversation_id
  platform := d.platform
  last_activity := some k.now
  message_count := some (jsOrInt d.message_position 0 + 1) }

/-- `WebSocketServer.handleUserMessage`: `insertMessage` followed by the
follow-up `upsertConversation`; an exception from either propagates, and a
statement already executed stays committed. -/
def handleUserMessage (d : EnvData) (k : Ctx) (db : DB) : DB × Option StoreErr :=
  match insertMessage (msgDataOf d k) k.now db with
  | .error e => (db, some e)
  | .ok db1 => exceptToPair db1 (upsertConversation (followUpConvData d k) k.now db1)

def unknownPlatform : String := "unknown"

/-- The loop over `data.system_prompts` at the end of
`handleApiCapture`: each prompt is upserted with platform
`data.platform || 'unknown'` and `first_seen`/`last_seen = Date.now()`; an
exception aborts the loop, keeping the upserts already committed. -/
def promptLoop (k : Ctx) (pf : Option String) (i : Nat) (ps : List String) (db : DB) :
    DB × Option StoreErr :=
  match ps with
  | [] => (db, none)
  | p :: rest =>
    let pd : PromptData := {
      platform := some (jsOrStr pf unknownPlatform)
      prompt_text := some p
      first_seen := some k.now
      last_seen := some k.now }
    match upsertSystemPrompt pd (k.uuidFn i) k.now db with
    | .error e => (db, some e)
    | .ok db2 => promptLoop k pf (i + 1) rest db2

/-- `WebSocketServer.handleApiCapture`: `insertApiCapture` then, when
`data.system_prompts` is a nonempty array, the system-prompt upsert loop. -/
def handleApiCapture (d : EnvData) (k : Ctx) (db : DB) : DB × Option StoreErr :=
  let cd : CapData := {
    id := some (jsOrStr d.id k.uuid)
    message_id := d.message_id
    timestamp := some (jsOrInt d.timestamp k.now)
    request_url := d.request_url
    request_method := d.request_method
    request_headers := d.request_headers
    request_body := d.request_body
    response_status := d.response_status
    response_headers := d.response_headers
    response_body := d.response_body
    raw_response := d.raw_response
    model := d.model
    temperature := d.temperature
    max_tokens := d.max_tokens
    stream := d.stream }
  match insertApiCapture cd db with
  | .error e => (db, some e)
  | .ok db1 =>
    match d.system_prompts with
    | some ps => if ps.length > 0 then promptLoop k d.platform 0 ps db1 else (db1, none)
    | none => (db1, none)

/-- `WebSocketServer.handleSystemPrompt`: a single `upsertSystemPrompt` with
`Date.now()` fallbacks for `first_seen`/`last_seen`. -/
def handleSystemPrompt (d : EnvData) (k : Ctx) (db : DB) : DB × Option StoreErr :=
  let pd : PromptData := {
    platform := d.platform
    prompt_text := d.prompt_text
    first_seen := some (jsOrInt d.first_seen k.now)
    last_seen := some (jsOrInt d.last_seen k.now) }
  exceptToPair db (upsertSystemPrompt pd k.uuid k.now db)

/-- `WebSocketServer.handleStreamingChunk`: builds `chunkData` and calls
`insertStreamingChunk`. -/
def handleStreamingChunk (d : EnvData) (k : Ctx) (db : DB) : DB × Option StoreErr :=
  let cd : ChunkData := {
    id := some (jsOrStr d.id k.uuid)
    message_id := d.message_id
    chunk_index := d.chunk_index
    timestamp := some (jsOrInt d.timestamp k.now)
    content := d.content
    delta_time_ms := d.delta_time_ms }
  exceptToPair db (insertStreamingChunk cd db)

def tagConversation : String := "conversation"

def tagMessage : String := "message"

def tagApiCapture : String := "api_capture"

def tagSystemPrompt : String := "system_prompt"

def tagStreamingChunk : String := "streaming_chunk"

def tagPing : String := "ping"

/-- The `switch (message.type)` of `WebSocketServer.handleMessage`: the new
store state, the messages sent from inside the switch (only `ping` sends),
and the exception if the dispatched handler threw.  Unknown types only log a
warning. -/
def dispatch (m : Envelope) (k : Ctx) (db : DB) : DB × List OutMsg × Option StoreErr :=
  if m.type = some tagConversation then
    let r := handleConversation m.data k db; (r.1, [], r.2)
  else if m.type = some tagMessage then
    let r := handleUserMessage m.data k db; (r.1, [], r.2)
  else if m.type = some tagApiCapture then
    let r := handleApiCapture m.data k db; (r.1, [], r.2)
  else if m.type = some tagSystemPrompt then
    let r := handleSystemPrompt m.data k db; (r.1, [], r.2)
  else if m.type = some tagStreamingChunk then
    let r := handleStreamingChunk m.data k db; (r.1, [], r.2)
  else if m.type = some tagPing then (db, [OutMsg.pong k.now], none)
  else (db, [], none)

/-- `WebSocketServer.handleMessage`: dispatch inside a `try`; the
acknowledgment `{type:'ack', messageId: message.id, timestamp}` is sent after
the switch, still inside the `try`, so a handler exception skips it and the
`catch` sends `{type:'error', error: err.message, timestamp}` instead.
`this.send` drops every message when the socket is not OPEN. -/
def handleMessage (m : Envelope) (k : Ctx) (wsOpen : Bool) (db : DB) :
    DB × List OutMsg :=
  let r := dispatch m k db
  match r.2.2 with
  | none => (r.1, if wsOpen then r.2.1 ++ [OutMsg.ack m.id k.now] else [])
  | some e => (r.1, if wsOpen then r.2.1 ++ [OutMsg.errorOut e.message k.now] else [])

/-
Transport Framer (NativeMessagingHost.sendMessageToChrome /
readMessageFromChrome in native-host/host.js).
-/

/-- The four bytes `Buffer.writeUInt32LE` produces for `n` (the JS call
throws a RangeError above 2^32 - 1, so frames are only ever written for
payload lengths below 2^32). -/
def u32le (n : Nat) : List Nat :=
  [n % 256, n / 256 % 256, n / 65536 % 256, n / 16777216 % 256]

/-- `Buffer.readUInt32LE` of four bytes. -/
def readU32LE (b0 b1 b2 b3 : Nat) : Nat :=
  b0 + 256 * b1 + 65536 * b2 + 16777216 * b3

/-- The declared length of the frame at the head of the buffer: the value
`readMessageFromChrome` computes from the first four header bytes. -/
def declLen : List Nat → Nat
  | b0 :: b1 :: b2 :: b3 :: _ => readU32LE b0 b1 b2 b3
  | _ => 0

/-- `NativeMessagingHost.sendMessageToChrome`: the bytes written to stdout
for one message payload — a 4-byte little-endian length header followed by
the payload bytes. -/
def encodeFrame (payload : List Nat) : List Nat :=
  u32le payload.length ++ payload

/-- The frame payloads `readMessageFromChrome` extracts from a byte buffer:
it accumulates 4 header bytes, computes the declared length, accumulates
exactly that many payload bytes, and repeats; bytes of an incomplete trailing
frame stay buffered.  There is no check of the declared length against any
maximum. -/
def extractFrames (buf : List Nat) : List (List Nat) × List Nat :=
  if h : 4 ≤ buf.length ∧ 4 + declLen buf ≤ buf.length then
    let rest := (extractFrames (buf.drop (4 + declLen buf)))
    ((buf.drop 4).take (declLen buf) :: rest.1, rest.2)
  else ([], buf)
termination_by buf.length
decreasing_by
  simp only [List.length_drop]
  omega

/-- Feeding one stdin chunk to the incremental reader: the chunk is appended
to the buffered leftover and complete frames are extracted. -/
def feedChunk (st : List (List Nat) × List Nat) (c : List Nat) :
    List (List Nat) × List Nat :=
  let r := extractFrames (st.2 ++ c)
  (st.1 ++ r.1, r.2)

/-- The reader run over a whole sequence of arbitrarily-sized stdin chunks,
starting with an empty buffer. -/
def feedChunks (chunks : List (List Nat)) : List (List Nat) × List Nat :=
  chunks.foldl feedChunk ([], [])

/-- A payload serialization scheme standing for `JSON.stringify` (to UTF-8
bytes) and `JSON.parse`, with the ECMA-262 guarantee that a JSON-serializable
value round-trips. -/
structure Serializer (M : Type) where
  stringifyBytes : M → List Nat
  parseBytes : List Nat → Option M
  parse_stringify : ∀ m, parseBytes (stringifyBytes m) = some m

/-- A whole encoded message as written by `sendMessageToChrome`. -/
def encodeMsg {M : Type} (S : Serializer M) (m : M) : List Nat :=
  encodeFrame (S.stringifyBytes m)

/-- The decoded results of the chunk stream: each completed frame's payload
run through `JSON.parse` (a `none` is the `reject(new Error('Invalid JSON'))`
path), plus the buffered leftover bytes. -/
def decodeChunksMsgs {M : Type} (S : Serializer M) (chunks : List (List Nat)) :
    List (Option M) × List Nat :=
  let r := feedChunks chunks
  (r.1.map S.parseBytes, r.2)

/-
Bridge Client (NativeMessagingHost connection state machine).
-/

/-- The observable state of a `NativeMessagingHost`: whether `this.ws` is an
OPEN socket, the FIFO `messageQueue`, the reconnect counters, plus two ghost
histories — the messages handed to `ws.send` in order, and how many reconnect
timers were armed. -/
structure HostState (M : Type) where
  wsOpen : Bool
  messageQueue : List M
  reconnectAttempts : Nat
  maxReconnectAttempts : Nat
  sentToApp : List M
  scheduledReconnects : Nat
deriving Repr, DecidableEq

/-- `NativeMessagingHost.sendMessageToDesktopApp`: send when the socket is
OPEN, otherwise push onto the queue. -/
def sendMessageToDesktopApp {M : Type} (m : M) (s : HostState M) : HostState M :=
  if s.wsOpen then { s with sentToApp := s.sentToApp ++ [m] }
  else { s with messageQueue := s.messageQueue ++ [m] }

/-- The `'open'` handler of `connectToDesktopApp`: reset the failure counter
and drain the queue front-first (`shift`), sending each queued message. -/
def hostOnOpen {M : Type} (s : HostState M) : HostState M :=
  { s with wsOpen := true, reconnectAttempts := 0,
           sentToApp := s.sentToApp ++ s.messageQueue, messageQueue := [] }

/-- The `'close'` handler of `connectToDesktopApp`: drop the socket, and arm
a reconnect timer only while `reconnectAttempts < maxReconnectAttempts`. -/
def hostOnClose {M : Type} (s : HostState M) : HostState M :=
  if s.reconnectAttempts < s.maxReconnectAttempts then
    { s with wsOpen := false,
             reconnectAttempts := s.reconnectAttempts + 1,
             scheduledReconnects := s.scheduledReconnects + 1 }
  else { s with wsOpen := false }

/-- Events driving the bridge-client state machine. -/
inductive HostEv (M : Type) where
  | send (m : M)
  | opened
  | closed
deriving Repr, DecidableEq

def hostStep {M : Type} (s : HostState M) : HostEv M → HostState M
  | .send m => sendMessageToDesktopApp m s
  | .opened => hostOnOpen s
  | .closed => hostOnClose s

def hostRun {M : Type} (s : HostState M) (evs : List (HostEv M)) : HostState M :=
  evs.foldl hostStep s

/-- The read loop of `NativeMessagingHost.start`: each decoded payload that
parses is forwarded via `sendMessageToDesktopApp`; a payload that fails
`JSON.parse` is logged and the loop continues with the next frame. -/
def forwardPayloads {M : Type} (S : Serializer M) (payloads : List (List Nat))
    (s : HostState M) : HostState M :=
  payloads.foldl (fun st p =>
    match S.parseBytes p with
    | some m => sendMessageToDesktopApp m st
    | none => st) s

/-- Concrete serializer used by the framer witnesses: one byte per value. -/
def natSer : Serializer Nat where
  stringifyBytes := fun n => [n]
  parseBytes := fun l => match l with
    | [n] => some n
    | _ => none
  parse_stringify := fun _ => rfl

/-- C5, as stated: the frame reader rejects (fails to decode) every frame
whose declared length exceeds some configured maximum below the 32-bit
range. -/
def framerLengthGuardClaim : Prop :=
  ∃ maxLen : Nat, maxLen + 1 < 4294967296 ∧
    ∀ p : List Nat, p.length < 4294967296 → maxLen < p.length →
      (extractFrames (encodeFrame p)).1 ≠ [p]

/-- A sequence of `insertMessage` calls made by a producer, each with the
`Date.now()` value the trigger sees; the sequence stops at the first thrown
error, like sequential JS calls. -/
def insertMessages : List (MsgData × Int) → DB → Except StoreErr DB
  | [], db => .ok db
  | p :: rest, db =>
    match insertMessage p.1 p.2 db with
    | .ok db2 => insertMessages rest db2
    | .error e => .error e

/-- The `last_activity` value after a sequence of message inserts: each
insert with timestamp `some ts` overwrites it with `ts`. -/
def lastActivity (l : List (MsgData × Int)) (dflt : Int) : Int :=
  l.foldl (fun acc p =>
    match p.1.timestamp with
    | some ts => ts
    | none => acc) dflt

/-- One `upsertSystemPrompt` call: its argument object and the ambient
`crypto.randomUUID()` / `Date.now()` values of that call. -/
structure PromptCall where
  d : PromptData
  uuid : String
  now : Int
deriving Repr, DecidableEq

/-- A sequence of `upsertSystemPrompt` calls, stopping at the first thrown
error. -/
def upsertPrompts : List PromptCall → DB → Except StoreErr DB
  | [], db => .ok db
  | pc :: rest, db =>
    match upsertSystemPrompt pc.d pc.uuid pc.now db with
    | .ok db2 => upsertPrompts rest db2
    | .error e => .error e

/-- The `first_seen` value a call records: `data.first_seen || Date.now()`. -/
def effFirstSeen (pc : PromptCall) : Int := jsOrInt pc.d.first_seen pc.now

/-- The `last_seen` value a call records: `data.last_seen || Date.now()`. -/
def effLastSeen (pc : PromptCall) : Int := jsOrInt pc.d.last_seen pc.now

/-- The `last_seen` value stored after a sequence of calls: each call
overwrites it with its own effective `last_seen`. -/
def lastLS (calls : List PromptCall) (dflt : Int) : Int :=
  calls.foldl (fun _ pc => effLastSeen pc) dflt

/-- Concrete fresh conversation row used by the C1 witness. -/
def convC1 : ConvRow := {
  id := "c1", platform := "chatgpt", platform_conversation_id := .nullV,
  title := .nullV, started_at := 1, last_activity := 1, message_count := 0,
  total_tokens := 0, model_used := .nullV, status := "active",
  metadata := "\x7b\x7d", created_at := 1, updated_at := 1 }

def dbC1 : DB := { DB.empty with conversations := [convC1] }

def call1C1 : MsgData × Int :=
  ({ id := some ("m1"), conversation_id := some ("c1"), timestamp := some 100,
     role := some ("user"), content := some ("a"), tokens_total := some 10 }, 7)

def call2C1 : MsgData × Int :=
  ({ id := some ("m2"), conversation_id := some ("c1"), timestamp := some 101,
     role := some ("assistant"), content := some ("b"), tokens_total := some 20 }, 7)

def call3C1 : MsgData × Int :=
  ({ id := some ("m3"), conversation_id := some ("c1"), timestamp := some 102,
     role := some ("user"), content := some ("c"), tokens_total := some 30 }, 7)

/-- The store after the C1 witness insert sequence. -/
def dbAfterC1 : DB :=
  match insertMessages [call1C1, call2C1, call3C1] dbC1 with
  | .ok d => d
  | .error _ => DB.empty

def pcC4a : PromptCall :=
  ⟨{ platform := some ("x"), prompt_text := some ("P"),
     first_seen := some 10, last_seen := some 10 }, "u1", 10⟩

def pcC4b : PromptCall :=
  ⟨{ platform := some ("x"), prompt_text := some ("P"),
     first_seen := some 20, last_seen := some 20 }, "u2", 20⟩

def pcC4c : PromptCall :=
  ⟨{ platform := some ("x"), prompt_text := some ("P"),
     first_seen := some 30, last_seen := some 30 }, "u3", 30⟩

/-- The store after the C4 witness upsert sequence. -/
def dbAfterC4 : DB :=
  match upsertPrompts [pcC4a, pcC4b, pcC4c] DB.empty with
  | .ok d => d
  | .error _ => DB.empty


/-- Concrete runtime context for server examples. -/
def ctxEx : Ctx := ⟨99, "uuid-1", fun _ => "uuid-loop"⟩

/-- C2 counterexample envelope: a `message` envelope whose dispatch throws
(its data has no `conversation_id`, so the insert's binding fails). -/
def envC2 : Envelope := { type := some tagMessage, id := some ("env-1") }

/-- A ping envelope, whose dispatch always succeeds. -/
def envPing : Envelope := { type := some tagPing, id := some ("env-2") }

/-- C10 example: an existing conversation with nonzero aggregates. -/
def convC10 : ConvRow := {
  id := "c1", platform := "chatgpt", platform_conversation_id := .nullV,
  title := .nullV, started_at := 1, last_activity := 2, message_count := 5,
  total_tokens := 100, model_used := .nullV, status := "active",
  metadata := "\x7b\x7d", created_at := 1, updated_at := 1 }

def dbC10 : DB := { DB.empty with conversations := [convC10] }

/-- C10 example envelope: a well-formed `message` envelope for the existing
conversation, at position 3 with 7 tokens. -/
def envC10 : Envelope := {
  type := some tagMessage
  id := some ("env-3")
  data := {
    id := some ("m1"), conversation_id := some ("c1"), timestamp := some 7,
    role := some ("user"), content := some ("hi"), message_position := some 3,
    tokens_total := some 7, platform := some ("chatgpt") } }

/-- The store state after the message insert of the C10 example (the state
at which the follow-up conversation upsert throws). -/
def dbMidC10 : DB :=
  match insertMessage (msgDataOf envC10.data ctxEx) ctxEx.now dbC10 with
  | .ok d => d
  | .error _ => DB.empty

end LLMTracker


namespace LLMTracker

/-
Theorems: Transport Framer (claims C5 and C6).
-/

/-- Recomposing the four little-endian header bytes yields the encoded
length, for any length `writeUInt32LE` accepts. -/
theorem declLen_encodeFrame (p rest : List Nat) (h : p.length < 4294967296) :
    declLen (encodeFrame p ++ rest) = p.length := by
  simp only [encodeFrame, u32le, declLen, readU32LE, List.cons_append, List.nil_append]
  omega

theorem extractFrames_nil : extractFrames [] = ([], []) := by
  rw [extractFrames]
  simp

/-- Extracting from a buffer that starts with a complete frame yields that
frame's payload and continues on the remainder. -/
theorem extractFrames_encode (p rest : List Nat) (h : p.length < 4294967296) :
    extractFrames (encodeFrame p ++ rest) =
      (p :: (extractFrames rest).1, (extractFrames rest).2) := by
  have hlen : (encodeFrame p ++ rest).length = 4 + p.length + rest.length := by
    simp [encodeFrame, u32le]
    omega
  have hd : declLen (encodeFrame p ++ rest) = p.length := declLen_encodeFrame p rest h
  have hdrop4 : (encodeFrame p ++ rest).drop 4 = p ++ rest := by
    simp only [encodeFrame, u32le, List.cons_append, List.nil_append, List.drop_succ_cons,
      List.drop_zero]
  rw [extractFrames]
  rw [dif_pos (by rw [hd, hlen]; omega)]
  refine Prod.ext ?_ ?_
  · simp only [hd]
    congr 1
    · rw [hdrop4, List.take_append_of_le_length (by omega), List.take_length]
    · congr 1
      rw [show (4 + p.length) = 4 + p.length from rfl]
      rw [← List.drop_drop, hdrop4, List.drop_left]
  · simp only [hd]
    congr 1
    rw [← List.drop_drop, hdrop4, List.drop_left]

theorem declLen_append (a b : List Nat) (h : 4 ≤ a.length) :
    declLen (a ++ b) = declLen a := by
  rcases a with _ | ⟨a0, _ | ⟨a1, _ | ⟨a2, _ | ⟨a3, t⟩⟩⟩⟩ <;> simp_all [declLen]

/-- Greedy frame extraction is incremental: extracting from `a ++ b` first
yields the frames of `a`, then continues on `a`'s leftover joined with
`b`. -/
theorem extractFrames_append (a : List Nat) : ∀ b : List Nat,
    extractFrames (a ++ b) =
      ((extractFrames a).1 ++ (extractFrames ((extractFrames a).2 ++ b)).1,
       (extractFrames ((extractFrames a).2 ++ b)).2) := by
  induction a using extractFrames.induct with
  | case1 a hg ih =>
    intro b
    have hd : declLen (a ++ b) = declLen a := declLen_append a b hg.1
    have hguard : 4 ≤ (a ++ b).length ∧ 4 + declLen (a ++ b) ≤ (a ++ b).length := by
      rw [hd]; simp only [List.length_append]; omega
    conv_lhs => rw [extractFrames]
    rw [dif_pos hguard]
    conv_rhs => rw [extractFrames, dif_pos hg]
    have hdrop : (a ++ b).drop (4 + declLen (a ++ b)) = a.drop (4 + declLen a) ++ b := by
      rw [hd, List.drop_append_of_le_length hg.2]
    have htake : ((a ++ b).drop 4).take (declLen (a ++ b)) = (a.drop 4).take (declLen a) := by
      rw [hd, List.drop_append_of_le_length hg.1,
        List.take_append_of_le_length (by simp only [List.length_drop]; omega)]
    rw [hdrop, htake, ih b]
    simp
  | case2 a hg =>
    intro b
    conv_rhs => rw [extractFrames, dif_neg hg]
    simp

theorem extractFrames_leftover (buf : List Nat) :
    extractFrames (extractFrames buf).2 = ([], (extractFrames buf).2) := by
  induction buf using extractFrames.induct with
  | case1 a hg ih =>
    have ha : (extractFrames a).2 = (extractFrames (List.drop (4 + declLen a) a)).2 := by
      rw [extractFrames, dif_pos hg]
    rw [ha]
    exact ih
  | case2 a hg =>
    have ha : (extractFrames a).2 = a := by rw [extractFrames, dif_neg hg]
    rw [ha]
    rw [extractFrames, dif_neg hg]

/-- Extracting from a concatenation of complete frames recovers exactly the
payload sequence, with nothing left buffered. -/
theorem extractFrames_flatten (ps : List (List Nat))
    (h : ∀ p ∈ ps, p.length < 4294967296) :
    extractFrames (ps.map encodeFrame).flatten = (ps, []) := by
  induction ps with
  | nil => simpa using extractFrames_nil
  | cons p rest ih =>
    rw [List.map_cons, List.flatten_cons,
      extractFrames_encode p _ (h p (by simp)),
      ih (fun q hq => h q (by simp [hq]))]

/-- Running the incremental reader over any chunk sequence is the same as
extracting frames from the concatenated bytes. -/
theorem feedChunks_flatten (chunks : List (List Nat)) :
    feedChunks chunks = extractFrames chunks.flatten := by
  suffices h : ∀ st : List (List Nat) × List Nat,
      extractFrames st.2 = ([], st.2) →
      chunks.foldl feedChunk st =
        (st.1 ++ (extractFrames (st.2 ++ chunks.flatten)).1,
         (extractFrames (st.2 ++ chunks.flatten)).2) by
    have h0 := h ([], []) extractFrames_nil
    simpa [feedChunks] using h0
  induction chunks with
  | nil =>
    intro st hst
    simp only [List.foldl_nil, List.flatten_nil, List.append_nil, hst]
  | cons c cs ih =>
    intro st hst
    rw [List.foldl_cons]
    have hpres : extractFrames (feedChunk st c).2 = ([], (feedChunk st c).2) := by
      simp only [feedChunk]
      exact extractFrames_leftover (st.2 ++ c)
    rw [ih (feedChunk st c) hpres]
    simp only [feedChunk, List.flatten_cons]
    rw [← List.append_assoc st.2 c cs.flatten, extractFrames_append (st.2 ++ c) cs.flatten]
    simp [List.append_assoc]

/-- C6: Framer round-trip.  For every serializable message list, feeding the
encoded frames to the reader — split across arbitrarily-sized chunks or
concatenated in one read — decodes every message back, in order, with no
leftover bytes. -/
theorem framer_round_trip {M : Type} (S : Serializer M) (ms : List M)
    (chunks : List (List Nat))
    (hlen : ∀ m ∈ ms, (S.stringifyBytes m).length < 4294967296)
    (hbytes : chunks.flatten = (ms.map (encodeMsg S)).flatten) :
    decodeChunksMsgs S chunks = (ms.map some, []) := by
  have hmap : ms.map (encodeMsg S) = (ms.map S.stringifyBytes).map encodeFrame := by
    simp [encodeMsg, List.map_map]
  have hps : ∀ p ∈ ms.map S.stringifyBytes, p.length < 4294967296 := by
    intro p hp
    rcases List.mem_map.1 hp with ⟨m, hm, rfl⟩
    exact hlen m hm
  simp only [decodeChunksMsgs, feedChunks_flatten, hbytes, hmap,
    extractFrames_flatten _ hps]
  simp only [List.map_map, Prod.mk.injEq, and_true]
  refine List.map_congr_left ?_
  intro m _
  exact S.parse_stringify m

/-- C6 witness: two messages, their frames delivered split across three
uneven chunks, decode back to exactly those messages. -/
theorem framer_round_trip_witness :
    decodeChunksMsgs natSer [[1, 0], [0, 0, 5, 1, 0], [0, 0, 7]] = ([some 5, some 7], []) := by
  have h := framer_round_trip natSer [5, 7] [[1, 0], [0, 0, 5, 1, 0], [0, 0, 7]]
    (by decide) (by decide)
  simpa using h

/-- C5 counterexample: `readMessageFromChrome` has no configured maximum at
all — for every candidate maximum, a frame one byte longer still decodes
successfully. -/
theorem frame_length_guard_refuted : ¬ framerLengthGuardClaim := by
  rintro ⟨maxLen, hm, h⟩
  have hplen : (List.replicate (maxLen + 1) (0 : Nat)).length < 4294967296 := by
    simpa using hm
  refine h (List.replicate (maxLen + 1) 0) hplen (by simp) ?_
  have he := extractFrames_encode (List.replicate (maxLen + 1) 0) [] hplen
  rw [List.append_nil] at he
  rw [he, extractFrames_nil]

/-- Forwarding helper: with an OPEN socket, the read loop hands exactly the
parseable payloads to `ws.send`, in order. -/
theorem forwardPayloads_sent {M : Type} (S : Serializer M) (ps : List (List Nat))
    (s : HostState M) (hopen : s.wsOpen = true) :
    (forwardPayloads S ps s).sentToApp = s.sentToApp ++ ps.filterMap S.parseBytes := by
  induction ps generalizing s with
  | nil => simp [forwardPayloads]
  | cons p rest ih =>
    simp only [forwardPayloads, List.foldl_cons] at *
    match hp : S.parseBytes p with
    | some m =>
      have hopen2 : (sendMessageToDesktopApp m s).wsOpen = true := by
        simp [sendMessageToDesktopApp, hopen]
      rw [ih (sendMessageToDesktopApp m s) hopen2]
      simp [sendMessageToDesktopApp, hopen, List.filterMap_cons, hp]
    | none =>
      rw [ih s hopen]
      simp [List.filterMap_cons, hp]

/-- C5 amended: the reader enforces no maximum declared length — every
well-formed frame of any encodable length decodes — and a frame whose
payload fails to parse is dropped alone: the read loop forwards exactly the
parseable payloads, in order, and the stream is not terminated. -/
theorem decode_forward_drops_only_bad_frames {M : Type} (S : Serializer M)
    (ps : List (List Nat)) (chunks : List (List Nat)) (s : HostState M)
    (hlen : ∀ p ∈ ps, p.length < 4294967296)
    (hbytes : chunks.flatten = (ps.map encodeFrame).flatten)
    (hopen : s.wsOpen = true) :
    (forwardPayloads S (feedChunks chunks).1 s).sentToApp
      = s.sentToApp ++ ps.filterMap S.parseBytes
    ∧ (feedChunks chunks).2 = [] := by
  rw [feedChunks_flatten, hbytes, extractFrames_flatten ps hlen]
  exact ⟨forwardPayloads_sent S ps s hopen, rfl⟩

/-- C5 amended witness: three frames in one read, the middle payload does
not parse; the two good messages are forwarded and nothing else is lost. -/
theorem decode_forward_witness :
    (forwardPayloads natSer
        (feedChunks [[1, 0, 0, 0, 5, 2, 0, 0, 0, 9, 9, 1, 0, 0, 0, 7]]).1
        ⟨true, [], 0, 10, [], 0⟩).sentToApp = [] ++ [5, 7]
    ∧ (feedChunks [[1, 0, 0, 0, 5, 2, 0, 0, 0, 9, 9, 1, 0, 0, 0, 7]]).2 = [] := by
  exact decode_forward_drops_only_bad_frames natSer [[5], [9, 9], [7]]
    [[1, 0, 0, 0, 5, 2, 0, 0, 0, 9, 9, 1, 0, 0, 0, 7]]
    ⟨true, [], 0, 10, [], 0⟩ (by decide) (by decide) rfl

end LLMTracker

namespace LLMTracker

/-
Theorems: Bridge Client (claims C7 and C8).
-/

/-- Sends while the socket is down only grow the queue, in order. -/
theorem hostRun_sends_disconnected {M : Type} (pre : List M) (s : HostState M)
    (h : s.wsOpen = false) :
    hostRun s (pre.map HostEv.send) =
      { s with messageQueue := s.messageQueue ++ pre } := by
  induction pre generalizing s with
  | nil => simp [hostRun]
  | cons m rest ih =>
    simp only [List.map_cons, hostRun, List.foldl_cons]
    have hstep : hostStep s (HostEv.send m) = { s with messageQueue := s.messageQueue ++ [m] } := by
      simp [hostStep, sendMessageToDesktopApp, h]
    rw [hstep]
    have := ih { s with messageQueue := s.messageQueue ++ [m] } (by simp [h])
    simp only [hostRun] at this
    rw [this]
    simp

/-- Sends while the socket is up go straight out, in order. -/
theorem hostRun_sends_connected {M : Type} (post : List M) (s : HostState M)
    (h : s.wsOpen = true) :
    hostRun s (post.map HostEv.send) =
      { s with sentToApp := s.sentToApp ++ post } := by
  induction post generalizing s with
  | nil => simp [hostRun]
  | cons m rest ih =>
    simp only [List.map_cons, hostRun, List.foldl_cons]
    have hstep : hostStep s (HostEv.send m) = { s with sentToApp := s.sentToApp ++ [m] } := by
      simp [hostStep, sendMessageToDesktopApp, h]
    rw [hstep]
    have := ih { s with sentToApp := s.sentToApp ++ [m] } (by simp [h])
    simp only [hostRun] at this
    rw [this]
    simp

/-- C7: every message submitted while not Connected is queued, and on the
open transition the queue is drained and delivered strictly in enqueue order
before any newly-submitted message. -/
theorem bridge_fifo_drain {M : Type} (s : HostState M) (pre post : List M)
    (h : s.wsOpen = false) :
    (hostRun s (pre.map HostEv.send ++ [HostEv.opened] ++ post.map HostEv.send)).sentToApp
        = s.sentToApp ++ (s.messageQueue ++ pre) ++ post
    ∧ (hostRun s (pre.map HostEv.send ++ [HostEv.opened])).messageQueue = [] := by
  have h1 := hostRun_sends_disconnected pre s h
  have hopen : hostRun s (pre.map HostEv.send ++ [HostEv.opened]) =
      hostOnOpen { s with messageQueue := s.messageQueue ++ pre } := by
    simp only [hostRun, List.foldl_append]
    rw [show List.foldl hostStep s (pre.map HostEv.send) = { s with messageQueue := s.messageQueue ++ pre } from h1]
    simp [hostStep]
  constructor
  · have h1' := h1
    simp only [hostRun] at h1'
    simp only [hostRun, List.append_assoc, List.foldl_append]
    rw [h1']
    have hopen2 : List.foldl hostStep { s with messageQueue := s.messageQueue ++ pre }
        [HostEv.opened] = hostOnOpen { s with messageQueue := s.messageQueue ++ pre } := by
      simp [hostStep]
    rw [hopen2]
    have h2 := hostRun_sends_connected post
      (hostOnOpen { s with messageQueue := s.messageQueue ++ pre }) (by simp [hostOnOpen])
    simp only [hostRun] at h2
    rw [h2]
    simp [hostOnOpen, List.append_assoc]
  · rw [hopen]
    simp [hostOnOpen]

/-- C7 witness: two messages queued while disconnected are delivered on open
before a later send. -/
theorem bridge_fifo_drain_witness :
    (hostRun (⟨false, [], 0, 10, [], 0⟩ : HostState Nat)
        ([1, 2].map HostEv.send ++ [HostEv.opened] ++ [3].map HostEv.send)).sentToApp
      = [] ++ ([] ++ [1, 2]) ++ [3]
    ∧ (hostRun (⟨false, [], 0, 10, [], 0⟩ : HostState Nat)
        ([1, 2].map HostEv.send ++ [HostEv.opened])).messageQueue = [] :=
  bridge_fifo_drain ⟨false, [], 0, 10, [], 0⟩ [1, 2] [3] rfl

/-- C8: once the consecutive-failure counter has reached the configured
maximum, no event other than a successful open ever arms another reconnect
timer or changes the counter; a successful open resets the counter to 0. -/
theorem bridge_reconnect_gives_up {M : Type} (s : HostState M) (evs : List (HostEv M))
    (hmax : s.maxReconnectAttempts ≤ s.reconnectAttempts)
    (hnoopen : (HostEv.opened : HostEv M) ∉ evs) :
    (hostRun s evs).scheduledReconnects = s.scheduledReconnects
    ∧ (hostRun s evs).reconnectAttempts = s.reconnectAttempts
    ∧ (hostOnOpen s).reconnectAttempts = 0 := by
  refine ⟨?_, ?_, rfl⟩ <;>
  · induction evs generalizing s with
    | nil => simp [hostRun]
    | cons e rest ih =>
      have hne : e ≠ HostEv.opened := fun hc => hnoopen (by simp [hc])
      have hrest : (HostEv.opened : HostEv M) ∉ rest := fun hc => hnoopen (by simp [hc])
      simp only [hostRun, List.foldl_cons]
      cases e with
      | send m =>
        have h1 : hostStep s (HostEv.send m) = sendMessageToDesktopApp m s := rfl
        rw [h1]
        have := ih (sendMessageToDesktopApp m s) ?_ hrest
        · simp only [hostRun] at this
          rw [this]
          by_cases hw : s.wsOpen <;> simp [sendMessageToDesktopApp, hw]
        · by_cases hw : s.wsOpen <;> simp [sendMessageToDesktopApp, hw, hmax]
      | opened => exact absurd rfl hne
      | closed =>
        have h1 : hostStep s HostEv.closed = { s with wsOpen := false } := by
          simp [hostStep, hostOnClose]
          omega
        rw [h1]
        have := ih { s with wsOpen := false } (by simpa using hmax) hrest
        simp only [hostRun] at this
        rw [this]

/-- C8 witness: with the counter at the maximum, further closes and sends
arm no timer and leave the counter alone; open resets it. -/
theorem bridge_reconnect_gives_up_witness :
    (hostRun (⟨false, [], 10, 10, [], 10⟩ : HostState Nat)
        [HostEv.closed, HostEv.send 5, HostEv.closed]).scheduledReconnects = 10
    ∧ (hostRun (⟨false, [], 10, 10, [], 10⟩ : HostState Nat)
        [HostEv.closed, HostEv.send 5, HostEv.closed]).reconnectAttempts = 10
    ∧ (hostOnOpen (⟨false, [], 10, 10, [], 10⟩ : HostState Nat)).reconnectAttempts = 0 :=
  bridge_reconnect_gives_up ⟨false, [], 10, 10, [], 10⟩
    [HostEv.closed, HostEv.send 5, HostEv.closed] (by decide) (by decide)

end LLMTracker

namespace LLMTracker

/-
Theorems: Store upsertConversation frame property (claim C9).
-/

/-- Searching an id-preserving row update with `stmt.get`'s first-match rule
commutes with the update. -/
theorem find?_map_update (l : List ConvRow) (cid : String) (f : ConvRow → ConvRow)
    (hf : ∀ q, (f q).id = q.id) :
    (l.map (fun q => if q.id = cid then f q else q)).find? (fun q => q.id == cid)
      = (l.find? (fun q => q.id == cid)).map (fun q => if q.id = cid then f q else q) := by
  rw [List.find?_map]
  have hp : ((fun q => q.id == cid) ∘ fun q => if q.id = cid then f q else q)
      = (fun q : ConvRow => q.id == cid) := by
    funext q
    by_cases hq : q.id = cid <;> simp [hq, hf]
  rw [hp]

/-- C9: an id-colliding `upsertConversation` succeeds and modifies only
`last_activity`, `message_count`, `total_tokens` and `metadata` of the
colliding row; every other column of that row (in particular `started_at`
and `platform`), every other conversation row, and every other table keep
their previous values. -/
theorem upsertConversation_conflict_frame (d : ConvData) (now : Int) (db : DB)
    (cid pf : String) (sa la : Int) (r : ConvRow)
    (hid : d.id = some cid) (hpf : d.platform = some pf)
    (hsa : d.started_at = some sa) (hla : d.last_activity = some la)
    (hr : getConversation db cid = some r) :
    ∃ db', upsertConversation d now db = .ok db'
    ∧ getConversation db' cid = some
        { r with last_activity := la,
                 message_count := jsOrInt d.message_count 0,
                 total_tokens := jsOrInt d.total_tokens 0,
                 metadata := d.metadata.getD emptyObj }
    ∧ (∀ q ∈ db.conversations, q.id ≠ cid → q ∈ db'.conversations)
    ∧ db'.conversations.length = db.conversations.length
    ∧ db'.messages = db.messages
    ∧ db'.api_captures = db.api_captures
    ∧ db'.system_prompts = db.system_prompts
    ∧ db'.streaming_chunks = db.streaming_chunks := by
  have hrid : r.id = cid := by
    have := List.find?_some hr
    simpa using this
  have hmem : r ∈ db.conversations := List.mem_of_find?_eq_some hr
  have hex : ∃ q ∈ db.conversations, q.id = cid := ⟨r, hmem, hrid⟩
  have hrun : upsertConversation d now db = .ok { db with
      conversations := db.conversations.map (fun q => if q.id = cid then
        { q with last_activity := la, message_count := jsOrInt d.message_count 0,
                 total_tokens := jsOrInt d.total_tokens 0,
                 metadata := d.metadata.getD emptyObj } else q) } := by
    rw [upsertConversation, hid, hpf, hsa, hla]
    simp only [if_pos hex]
  refine ⟨_, hrun, ?_, ?_, ?_, rfl, rfl, rfl, rfl⟩
  · unfold getConversation
    have hx : ({ db with
        conversations := db.conversations.map (fun q => if q.id = cid then
          { q with last_activity := la, message_count := jsOrInt d.message_count 0,
                   total_tokens := jsOrInt d.total_tokens 0,
                   metadata := d.metadata.getD emptyObj } else q) } : DB).conversations
        = db.conversations.map (fun q => if q.id = cid then
          { q with last_activity := la, message_count := jsOrInt d.message_count 0,
                   total_tokens := jsOrInt d.total_tokens 0,
                   metadata := d.metadata.getD emptyObj } else q) := rfl
    rw [hx]
    rw [find?_map_update db.conversations cid
      (fun q => { q with last_activity := la,
                         message_count := jsOrInt d.message_count 0,
                         total_tokens := jsOrInt d.total_tokens 0,
                         metadata := d.metadata.getD emptyObj }) (fun _ => rfl)]
    have hr2 : db.conversations.find? (fun q => q.id == cid) = some r := hr
    rw [hr2]
    simp [hrid]
  · intro q hq hne
    exact List.mem_map.2 ⟨q, hq, by simp [hne]⟩
  · simp

/-- C9 witness: a colliding upsert on a concrete one-row store updates the
four claimed fields and keeps `started_at` and `platform`. -/
theorem upsertConversation_conflict_frame_witness :
    ∃ db', upsertConversation
        { id := some ("c1"), platform := some ("claude"), started_at := some 50,
          last_activity := some 60, message_count := some 9, total_tokens := some 42,
          metadata := some ("m2") } 77
        { DB.empty with conversations := [{
            id := "c1", platform := "chatgpt", platform_conversation_id := .nullV,
            title := .nullV, started_at := 1, last_activity := 2, message_count := 3,
            total_tokens := 4, model_used := .nullV, status := "active",
            metadata := "m1", created_at := 1, updated_at := 1 }] } = .ok db'
    ∧ getConversation db' ("c1") = some {
        id := "c1", platform := "chatgpt", platform_conversation_id := .nullV,
        title := .nullV, started_at := 1, last_activity := 60, message_count := 9,
        total_tokens := 42, model_used := .nullV, status := "active",
        metadata := "m2", created_at := 1, updated_at := 1 }
    ∧ (∀ q ∈ ({ DB.empty with conversations := [{
            id := "c1", platform := "chatgpt", platform_conversation_id := .nullV,
            title := .nullV, started_at := 1, last_activity := 2, message_count := 3,
            total_tokens := 4, model_used := .nullV, status := "active",
            metadata := "m1", created_at := 1, updated_at := 1 }] } : DB).conversations,
        q.id ≠ "c1" → q ∈ db'.conversations)
    ∧ db'.conversations.length = 1
    ∧ db'.messages = [] ∧ db'.api_captures = [] ∧ db'.system_prompts = []
    ∧ db'.streaming_chunks = [] := by
  have h := upsertConversation_conflict_frame
    { id := some ("c1"), platform := some ("claude"), started_at := some 50,
      last_activity := some 60, message_count := some 9, total_tokens := some 42,
      metadata := some ("m2") } 77
    { DB.empty with conversations := [{
        id := "c1", platform := "chatgpt", platform_conversation_id := .nullV,
        title := .nullV, started_at := 1, last_activity := 2, message_count := 3,
        total_tokens := 4, model_used := .nullV, status := "active",
        metadata := "m1", created_at := 1, updated_at := 1 }] }
    "c1" "claude" 50 60
    { id := "c1", platform := "chatgpt", platform_conversation_id := .nullV,
      title := .nullV, started_at := 1, last_activity := 2, message_count := 3,
      total_tokens := 4, model_used := .nullV, status := "active",
      metadata := "m1", created_at := 1, updated_at := 1 }
    rfl rfl rfl rfl (by decide)
  rcases h with ⟨db', h1, h2, h3, h4, h5, h6, h7, h8⟩
  exact ⟨db', h1, by simpa [jsOrInt, jsTruthyInt] using h2, h3, by simpa using h4, h5, h6, h7, h8⟩

end LLMTracker

namespace LLMTracker

/-
Theorems: Store insertApiCapture referential integrity (claim C3).
-/

/-- C3: a capture insert whose `message_id` does not reference an existing
message row throws a `StoreErr` (binding TypeError, NOT NULL, or the FOREIGN
KEY violation), and the store is left unchanged — no capture row is
persisted. -/
theorem insertApiCapture_missing_message (d : CapData) (db : DB) (mid : String)
    (hmid : d.message_id = some mid)
    (hmiss : ∀ m ∈ db.messages, m.id ≠ mid) :
    ∃ e : StoreErr, insertApiCapture d db = .error e
      ∧ exceptToPair db (insertApiCapture d db) = (db, some e) := by
  have hfk : ¬ ∃ m ∈ db.messages, m.id = mid := by
    rintro ⟨m, hm, hmeq⟩
    exact hmiss m hm hmeq
  have h : ∃ e : StoreErr, insertApiCapture d db = .error e := by
    rcases hdid : d.id with _ | cid <;> rcases hts : d.timestamp with _ | ts <;>
      simp only [insertApiCapture, hmid, hdid, hts]
    · exact ⟨.bindUndefined, rfl⟩
    · exact ⟨.bindUndefined, rfl⟩
    · exact ⟨.bindUndefined, rfl⟩
    · by_cases hpk : ∃ c ∈ db.api_captures, c.id = cid
      · exact ⟨.uniqueViolation, by rw [if_pos hpk]⟩
      · rw [if_neg hpk]
        rcases hurl : jsOrNullStr d.request_url with _ | n | u <;> simp only [hurl]
        · exact ⟨.notNullViolation, rfl⟩
        · exact ⟨.notNullViolation, rfl⟩
        · exact ⟨.fkViolation, by rw [if_neg hfk]⟩
  rcases h with ⟨e, he⟩
  exact ⟨e, he, by rw [he, exceptToPair]⟩

/-- C3 witness: a concrete capture pointing at a missing message fails and
leaves the store unchanged. -/
theorem insertApiCapture_missing_message_witness :
    ∃ e : StoreErr, insertApiCapture
        { id := some ("cap1"), message_id := some ("m9"), timestamp := some 5,
          request_url := some ("https://x") } DB.empty = .error e
      ∧ exceptToPair DB.empty (insertApiCapture
        { id := some ("cap1"), message_id := some ("m9"), timestamp := some 5,
          request_url := some ("https://x") } DB.empty) = (DB.empty, some e) :=
  insertApiCapture_missing_message
    { id := some ("cap1"), message_id := some ("m9"), timestamp := some 5,
      request_url := some ("https://x") } DB.empty ("m9") rfl (by decide)

end LLMTracker

namespace LLMTracker

/-
Theorems: Store insertMessage aggregate maintenance (claim C1).
-/

/-- Anatomy of a successful `insertMessage`: the bound timestamp exists and
the conversations table receives exactly the trigger's dependent update. -/
theorem insertMessage_ok_spec (d : MsgData) (now : Int) (db db' : DB)
    (cid : String) (hcid : d.conversation_id = some cid)
    (h : insertMessage d now db = .ok db') :
    ∃ ts, d.timestamp = some ts ∧
      db'.conversations = db.conversations.map (fun c => if c.id = cid then
        { c with message_count := c.message_count + 1,
                 total_tokens := c.total_tokens + coalesceInt0 (jsOrNullInt d.tokens_total),
                 last_activity := ts, updated_at := now } else c) := by
  unfold insertMessage at h
  split at h
  next mid convId ts role content heq1 heq2 heq3 heq4 heq5 =>
    rw [hcid] at heq2
    injection heq2 with heq2
    subst heq2
    split at h
    · exact absurd h (by simp)
    · split at h
      · injection h with h
        exact ⟨ts, heq3, by rw [← h]⟩
      · exact absurd h (by simp)
  next => exact absurd h (by simp)

end LLMTracker

namespace LLMTracker

/-- Aggregate invariant under a successful insert sequence, from an
arbitrary starting row: count, token sum and last activity accumulate, and
every inserted message carried a bindable timestamp. -/
theorem insertMessages_stats (l : List (MsgData × Int)) :
    ∀ (db db' : DB) (cid : String) (c : ConvRow),
    insertMessages l db = .ok db' →
    getConversation db cid = some c →
    (∀ p ∈ l, p.1.conversation_id = some cid) →
    (∀ p ∈ l, (p.1.timestamp).isSome) ∧
    ∃ c', getConversation db' cid = some c'
      ∧ c'.message_count = c.message_count + l.length
      ∧ c'.total_tokens = c.total_tokens
          + (l.map (fun p => coalesceInt0 (jsOrNullInt p.1.tokens_total))).sum
      ∧ c'.last_activity = lastActivity l c.last_activity := by
  induction l with
  | nil =>
    intro db db' cid c hrun hc hown
    rw [insertMessages] at hrun
    injection hrun with hrun
    subst hrun
    exact ⟨by simp, c, hc, by simp, by simp, by simp [lastActivity]⟩
  | cons p rest ih =>
    intro db db' cid c hrun hc hown
    have hcid : p.1.conversation_id = some cid := hown p (by simp)
    rw [insertMessages] at hrun
    match hstep : insertMessage p.1 p.2 db with
    | .error e => rw [hstep] at hrun; exact absurd hrun (by simp)
    | .ok db2 =>
      rw [hstep] at hrun
      rcases insertMessage_ok_spec p.1 p.2 db db2 cid hcid hstep with ⟨ts, hts, hconv⟩
      have hrid : c.id = cid := by
        have := List.find?_some hc
        simpa using this
      have hc2 : getConversation db2 cid = some
          { c with message_count := c.message_count + 1,
                   total_tokens := c.total_tokens + coalesceInt0 (jsOrNullInt p.1.tokens_total),
                   last_activity := ts, updated_at := p.2 } := by
        unfold getConversation
        rw [hconv]
        rw [find?_map_update db.conversations cid
          (fun q => { q with message_count := q.message_count + 1,
                             total_tokens := q.total_tokens + coalesceInt0 (jsOrNullInt p.1.tokens_total),
                             last_activity := ts, updated_at := p.2 }) (fun _ => rfl)]
        have hc' : db.conversations.find? (fun q => q.id == cid) = some c := hc
        rw [hc']
        simp [hrid]
      rcases ih db2 db' cid _ hrun hc2 (fun q hq => hown q (by simp [hq])) with
        ⟨htsrest, c', hfind, hcount, htok, hlast⟩
    
      refine ⟨?_, c', hfind, ?_, ?_, ?_⟩
      · intro q hq
        rcases List.mem_cons.1 hq with hq1 | hq2
        · rw [hq1, hts]; rfl
        · exact htsrest q hq2
      · rw [hcount]
        simp only [List.length_cons]
        omega
      · rw [htok]
        simp only [List.map_cons, List.sum_cons]
        ring
      · rw [hlast]
        simp [lastActivity, hts]

theorem lastActivity_append_some (l : List (MsgData × Int)) (p : MsgData × Int)
    (ts d : Int) (hts : p.1.timestamp = some ts) :
    lastActivity (l ++ [p]) d = ts := by
  unfold lastActivity
  rw [List.foldl_append]
  simp [hts]

/-- C1: starting from a conversation with zero aggregates, any nonempty
successful `insertMessage` sequence for that conversation (each message
carrying a `tokens_total`) leaves `message_count` equal to the number of
inserts, `total_tokens` equal to the sum of the inserted `tokens_total`
values, and `last_activity` equal to the last inserted message's timestamp;
each insert applies the message row and the trigger's aggregate update as
one indivisible store transition. -/
theorem insertMessage_sequence_aggregates (l : List (MsgData × Int))
    (pLast : MsgData × Int) (db db' : DB) (cid : String) (c : ConvRow)
    (hrun : insertMessages (l ++ [pLast]) db = .ok db')
    (hc : getConversation db cid = some c)
    (hcount0 : c.message_count = 0) (htok0 : c.total_tokens = 0)
    (hown : ∀ p ∈ l ++ [pLast], p.1.conversation_id = some cid)
    (htok : ∀ p ∈ l ++ [pLast], (p.1.tokens_total).isSome) :
    ∃ c', getConversation db' cid = some c'
      ∧ c'.message_count = (l ++ [pLast]).length
      ∧ c'.total_tokens = ((l ++ [pLast]).map (fun p => (p.1.tokens_total).getD 0)).sum
      ∧ some c'.last_activity = pLast.1.timestamp := by
  rcases insertMessages_stats (l ++ [pLast]) db db' cid c hrun hc hown with
    ⟨htsall, c', hfind, hcount, htoksum, hlast⟩
  have htsp : (pLast.1.timestamp).isSome := htsall pLast (by simp)
  rcases hts : pLast.1.timestamp with _ | ts
  · rw [hts] at htsp; simp at htsp
  refine ⟨c', hfind, by rw [hcount, hcount0]; omega, ?_, ?_⟩
  · rw [htoksum, htok0]
    have hmapeq : (l ++ [pLast]).map (fun p => coalesceInt0 (jsOrNullInt p.1.tokens_total))
        = (l ++ [pLast]).map (fun p => (p.1.tokens_total).getD 0) := by
      refine List.map_congr_left ?_
      intro p hp
      have := htok p hp
      rcases hsome : p.1.tokens_total with _ | t
      · rw [hsome] at this; simp at this
      · by_cases ht0 : t = 0 <;> simp [jsOrNullInt, jsTruthyInt, coalesceInt0, ht0, hsome]
    rw [hmapeq]
    ring
  · rw [hlast, lastActivity_append_some l pLast ts c.last_activity hts]

end LLMTracker

namespace LLMTracker

/-- C1 witness: the spec's concrete scenario — three inserts with tokens
10, 20, 30 at timestamps 100, 101, 102 into a fresh conversation give
`message_count = 3`, `total_tokens = 60`, `last_activity = 102`. -/
theorem insertMessage_sequence_aggregates_witness :
    ∃ c', getConversation dbAfterC1 ("c1") = some c'
      ∧ c'.message_count = 3 ∧ c'.total_tokens = 60
      ∧ some c'.last_activity = some (102 : Int) := by
  have h := insertMessage_sequence_aggregates [call1C1, call2C1] call3C1 dbC1 dbAfterC1
    ("c1") convC1 rfl (by decide) rfl rfl (by decide) (by decide)
  simpa [call1C1, call2C1, call3C1] using h

end LLMTracker

namespace LLMTracker

/-
Theorems: Store upsertSystemPrompt deduplication (claim C4).
-/

/-- Filtering by hash commutes with a hash-preserving conditional update. -/
theorem filter_hash_map_update (l : List PromptRow) (h : String)
    (f : PromptRow → PromptRow) (hf : ∀ q, (f q).prompt_hash = q.prompt_hash) :
    (l.map (fun q => if q.prompt_hash = h then f q else q)).filter
        (fun q => q.prompt_hash == h)
      = (l.filter (fun q => q.prompt_hash == h)).map f := by
  induction l with
  | nil => simp
  | cons a t ih =>
    by_cases ha : a.prompt_hash = h <;>
      simp [List.filter_cons, ha, hf, ih]

/-- Anatomy of a conflicting `upsertSystemPrompt` call: when a row with the
text's hash exists, the call succeeds and only bumps `occurrence_count` and
overwrites `last_seen` on the hash-matching row. -/
theorem upsertSystemPrompt_conflict_spec (d : PromptData) (uuid : String) (now : Int)
    (db : DB) (txt pf : String)
    (htxt : d.prompt_text = some txt) (hpf : d.platform = some pf)
    (hex : ∃ p ∈ db.system_prompts, p.prompt_hash = sha256Hex txt) :
    upsertSystemPrompt d uuid now db = .ok { db with
      system_prompts := db.system_prompts.map (fun p =>
        if p.prompt_hash = sha256Hex txt then
          { p with last_seen := jsOrInt d.last_seen now,
                   occurrence_count := p.occurrence_count + 1 }
        else p) } := by
  rw [upsertSystemPrompt, htxt, hpf]
  simp only [if_pos hex]

/-- Anatomy of a first `upsertSystemPrompt` of a text: with no hash-matching
row present, a successful call inserts exactly one row for the hash, with
`occurrence_count = 1` and the call's recorded `first_seen`/`last_seen`. -/
theorem upsertSystemPrompt_insert_spec (d : PromptData) (uuid : String) (now : Int)
    (db db' : DB) (txt : String) (htxt : d.prompt_text = some txt)
    (hnone : db.system_prompts.filter (fun p => p.prompt_hash == sha256Hex txt) = [])
    (hok : upsertSystemPrompt d uuid now db = .ok db') :
    ∃ pf, d.platform = some pf ∧
      db'.system_prompts.filter (fun p => p.prompt_hash == sha256Hex txt)
        = [{ id := jsOrStr d.id uuid, platform := pf, prompt_text := txt,
             prompt_hash := sha256Hex txt,
             first_seen := jsOrInt d.first_seen now,
             last_seen := jsOrInt d.last_seen now,
             occurrence_count := 1,
             conversation_ids := d.conversation_ids.getD emptyArr,
             created_at := now, updated_at := now }] := by
  have hnomem : ∀ p ∈ db.system_prompts, p.prompt_hash ≠ sha256Hex txt := by
    intro p hp
    have := List.filter_eq_nil_iff.1 hnone p hp
    simpa using this
  have hnoex : ¬ ∃ p ∈ db.system_prompts, p.prompt_hash = sha256Hex txt := by
    rintro ⟨p, hp, hph⟩
    exact hnomem p hp hph
  rw [upsertSystemPrompt, htxt] at hok
  rcases hpf : d.platform with _ | pf
  · rw [hpf] at hok
    exact absurd hok (by simp)
  · rw [hpf] at hok
    simp only [if_neg hnoex] at hok
    refine ⟨pf, rfl, ?_⟩
    by_cases hpk : ∃ p ∈ db.system_prompts, p.id = jsOrStr d.id uuid
    · rw [if_pos hpk] at hok
      exact absurd hok (by simp)
    · rw [if_neg hpk] at hok
      injection hok with hok
      rw [← hok]
      show ((db.system_prompts ++ [_]).map _).filter _ = _
      rw [List.map_append, List.filter_append]
      have hold : (db.system_prompts.map (fun p =>
          if p.prompt_hash = sha256Hex txt ∧ p.id ≠ jsOrStr d.id uuid then
            { p with occurrence_count := p.occurrence_count + 1,
                     last_seen := jsOrInt d.last_seen now, updated_at := now }
          else p)) = db.system_prompts := by
        conv_rhs => rw [← List.map_id db.system_prompts]
        refine List.map_congr_left ?_
        intro p hp
        simp only [id]
        rw [if_neg]
        rintro ⟨hph, _⟩
        exact hnomem p hp hph
      rw [hold, hnone]
      simp
end LLMTracker

namespace LLMTracker

/-- Conflict accumulation: from a single existing row for a hash, a
successful run of same-text upserts keeps exactly one row for that hash,
adds one occurrence per call and tracks the latest `last_seen`, leaving the
text, `first_seen` and every other field of the row untouched. -/
theorem upsertPrompts_conflict (calls : List PromptCall) :
    ∀ (db db' : DB) (txt : String) (row : PromptRow),
    upsertPrompts calls db = .ok db' →
    (∀ pc ∈ calls, pc.d.prompt_text = some txt) →
    db.system_prompts.filter (fun p => p.prompt_hash == sha256Hex txt) = [row] →
    ∃ row', db'.system_prompts.filter (fun p => p.prompt_hash == sha256Hex txt) = [row']
      ∧ row'.occurrence_count = row.occurrence_count + calls.length
      ∧ row'.last_seen = lastLS calls row.last_seen
      ∧ row'.id = row.id ∧ row'.platform = row.platform
      ∧ row'.prompt_text = row.prompt_text ∧ row'.prompt_hash = row.prompt_hash
      ∧ row'.first_seen = row.first_seen
      ∧ row'.conversation_ids = row.conversation_ids
      ∧ row'.created_at = row.created_at ∧ row'.updated_at = row.updated_at := by
  induction calls with
  | nil =>
    intro db db' txt row hrun htxt hfilter
    rw [upsertPrompts] at hrun
    injection hrun with hrun
    subst hrun
    exact ⟨row, hfilter, by simp, by simp [lastLS], rfl, rfl, rfl, rfl, rfl, rfl, rfl, rfl⟩
  | cons pc rest ih =>
    intro db db' txt row hrun htxt hfilter
    have htxt0 : pc.d.prompt_text = some txt := htxt pc (by simp)
    have hex : ∃ p ∈ db.system_prompts, p.prompt_hash = sha256Hex txt := by
      have hmem : row ∈ db.system_prompts.filter (fun p => p.prompt_hash == sha256Hex txt) := by
        rw [hfilter]; simp
      rcases List.mem_filter.1 hmem with ⟨hmem2, hph⟩
      exact ⟨row, hmem2, by simpa using hph⟩
    rw [upsertPrompts] at hrun
    rcases hpf : pc.d.platform with _ | pf
    · rw [upsertSystemPrompt, htxt0, hpf] at hrun
      exact absurd hrun (by simp)
    · have hstep := upsertSystemPrompt_conflict_spec pc.d pc.uuid pc.now db txt pf htxt0 hpf hex
      rw [hstep] at hrun
      have hrun2 : upsertPrompts rest { db with system_prompts := db.system_prompts.map (fun p =>
          if p.prompt_hash = sha256Hex txt then
            { p with last_seen := jsOrInt pc.d.last_seen pc.now,
                     occurrence_count := p.occurrence_count + 1 }
          else p) } = .ok db' := hrun
      have hfilter2 : ({ db with system_prompts := db.system_prompts.map (fun p =>
            if p.prompt_hash = sha256Hex txt then
              { p with last_seen := jsOrInt pc.d.last_seen pc.now,
                       occurrence_count := p.occurrence_count + 1 }
            else p) } : DB).system_prompts.filter (fun p => p.prompt_hash == sha256Hex txt)
          = [{ row with last_seen := jsOrInt pc.d.last_seen pc.now,
                        occurrence_count := row.occurrence_count + 1 }] := by
        show (db.system_prompts.map _).filter _ = _
        rw [filter_hash_map_update db.system_prompts (sha256Hex txt)
          (fun p => { p with last_seen := jsOrInt pc.d.last_seen pc.now,
                             occurrence_count := p.occurrence_count + 1 }) (fun _ => rfl)]
        rw [hfilter]
        rfl
      rcases ih _ db' txt _ hrun2 (fun q hq => htxt q (by simp [hq])) hfilter2 with
        ⟨row', hf', hocc, hls, hid, hplat, htext, hhash, hfs, hcids, hca, hua⟩
      refine ⟨row', hf', ?_, ?_, by simpa using hid, by simpa using hplat,
        by simpa using htext, by simpa using hhash, by simpa using hfs,
        by simpa using hcids, by simpa using hca, by simpa using hua⟩
      · rw [hocc]
        simp only [List.length_cons]
        push_cast
        ring
      · rw [hls]
        rw [lastLS, lastLS, List.foldl_cons]
        rfl

end LLMTracker

namespace LLMTracker

/-- C4: upserting the same prompt text K ≥ 1 times into a store holding no
row for that text yields exactly one stored row for its hash, with
`occurrence_count = K`, `first_seen` the value recorded by the first call
and untouched by every later call, `last_seen` the last call's recorded
timestamp, and the stored text never modified by a conflicting upsert. -/
theorem upsertSystemPrompt_dedup (pc0 : PromptCall) (rest : List PromptCall)
    (db db' : DB) (txt : String)
    (hrun : upsertPrompts (pc0 :: rest) db = .ok db')
    (htxt : ∀ pc ∈ pc0 :: rest, pc.d.prompt_text = some txt)
    (hfresh : db.system_prompts.filter (fun p => p.prompt_hash == sha256Hex txt) = []) :
    ∃ row', db'.system_prompts.filter (fun p => p.prompt_hash == sha256Hex txt) = [row']
      ∧ row'.occurrence_count = (pc0 :: rest).length
      ∧ row'.first_seen = effFirstSeen pc0
      ∧ row'.last_seen = lastLS rest (effLastSeen pc0)
      ∧ row'.prompt_text = txt := by
  have htxt0 : pc0.d.prompt_text = some txt := htxt pc0 (by simp)
  rw [upsertPrompts] at hrun
  match hstep : upsertSystemPrompt pc0.d pc0.uuid pc0.now db with
  | .error e => rw [hstep] at hrun; exact absurd hrun (by simp)
  | .ok db2 =>
    rw [hstep] at hrun
    rcases upsertSystemPrompt_insert_spec pc0.d pc0.uuid pc0.now db db2 txt htxt0
      hfresh hstep with ⟨pf, hpf, hfilter2⟩
    rcases upsertPrompts_conflict rest db2 db' txt _ hrun
      (fun q hq => htxt q (by simp [hq])) hfilter2 with
      ⟨row', hf', hocc, hls, hid, hplat, htext, hhash, hfs, hcids, hca, hua⟩
    refine ⟨row', hf', ?_, ?_, ?_, ?_⟩
    · rw [hocc]
      simp only [List.length_cons]
      push_cast
      ring
    · rw [hfs]
      rfl
    · rw [hls]
      rfl
    · rw [htext]

/-- C4 witness: the spec's concrete scenario — upserting prompt text `"P"`
for platform `"x"` three times yields one row with `occurrence_count = 3`,
`first_seen` from the first call and `last_seen` from the third. -/
theorem upsertSystemPrompt_dedup_witness :
    ∃ row', dbAfterC4.system_prompts.filter
        (fun p => p.prompt_hash == sha256Hex ("P")) = [row']
      ∧ row'.occurrence_count = 3
      ∧ row'.first_seen = 10
      ∧ row'.last_seen = 30
      ∧ row'.prompt_text = "P" := by
  have h := upsertSystemPrompt_dedup pcC4a [pcC4b, pcC4c] DB.empty dbAfterC4 ("P")
    rfl (by decide) (by decide)
  simpa [effFirstSeen, effLastSeen, lastLS, pcC4a, pcC4b, pcC4c, jsOrInt, jsTruthyInt] using h

end LLMTracker

namespace LLMTracker

/-
Theorems: Ingestion Server acknowledgment discipline (claim C2).
-/

/-- The dispatch switch itself sends at most the pong reply. -/
theorem dispatch_outs (m : Envelope) (k : Ctx) (db : DB) :
    (dispatch m k db).2.1 = [] ∨ (dispatch m k db).2.1 = [OutMsg.pong k.now] := by
  unfold dispatch
  split_ifs <;> simp

/-- C2 counterexample: for the concrete `message` envelope whose handler
throws, `handleMessage` emits no acknowledgment at all — only the error
notification — refuting "exactly one acknowledgment ... whether its dispatch
succeeds or fails". -/
theorem handleMessage_ack_counterexample :
    (handleMessage envC2 ctxEx true DB.empty).2.countP OutMsg.isAckB = 0
    ∧ (handleMessage envC2 ctxEx true DB.empty).2.countP OutMsg.isErrB = 1
    ∧ (0 : Nat) ≠ 1 := by
  refine ⟨by decide, by decide, by decide⟩

/-- C2 amended: when the dispatched handler succeeds (and for ping/unknown
envelopes) exactly one acknowledgment keyed by the envelope's id and no
error is emitted; when the handler throws, no acknowledgment and exactly one
error notification are emitted; in neither case does the server close the
connection. -/
theorem handleMessage_ack_discipline (m : Envelope) (k : Ctx) (db : DB) :
    ((dispatch m k db).2.2 = none →
      (handleMessage m k true db).2.countP OutMsg.isAckB = 1
      ∧ (handleMessage m k true db).2.countP OutMsg.isErrB = 0
      ∧ OutMsg.closeConn ∉ (handleMessage m k true db).2)
    ∧ (∀ e, (dispatch m k db).2.2 = some e →
      (handleMessage m k true db).2.countP OutMsg.isAckB = 0
      ∧ (handleMessage m k true db).2.countP OutMsg.isErrB = 1
      ∧ OutMsg.closeConn ∉ (handleMessage m k true db).2) := by
  have houts := dispatch_outs m k db
  constructor
  · intro hnone
    rcases houts with h0 | h0 <;>
      simp [handleMessage, hnone, h0, List.countP_append, List.countP_cons,
        OutMsg.isAckB, OutMsg.isErrB]
  · intro e he
    rcases houts with h0 | h0 <;>
      simp [handleMessage, he, h0, List.countP_append, List.countP_cons,
        OutMsg.isAckB, OutMsg.isErrB]

/-- C2 amended witness: a concrete successful (ping) envelope gets exactly
one ack, no error, no close. -/
theorem handleMessage_ack_discipline_witness :
    (handleMessage envPing ctxEx true DB.empty).2.countP OutMsg.isAckB = 1
    ∧ (handleMessage envPing ctxEx true DB.empty).2.countP OutMsg.isErrB = 0
    ∧ OutMsg.closeConn ∉ (handleMessage envPing ctxEx true DB.empty).2 :=
  (handleMessage_ack_discipline envPing ctxEx DB.empty).1 rfl

end LLMTracker

namespace LLMTracker

/-
Theorems: handleUserMessage follow-up upsert (claim C10).
-/

/-- The follow-up conversation upsert of `handleUserMessage` always throws
the binding TypeError: its argument object never carries `started_at` (and
binding `undefined` is rejected), so it can never overwrite anything. -/
theorem followUp_upsert_throws (d : EnvData) (k : Ctx) (db : DB) (cid : String)
    (hcid : d.conversation_id = some cid) :
    upsertConversation (followUpConvData d k) k.now db = .error .bindUndefined := by
  rcases hpf : d.platform with _ | pf <;>
    simp [upsertConversation, followUpConvData, hcid, hpf]

/-- C10 counterexample: for the concrete `message` envelope at position 3
(7 tokens) on a conversation with `message_count = 5`, `total_tokens = 100`,
the handler leaves the trigger-maintained aggregates `(6, 107)` — not the
claimed `(message_position + 1, 0) = (4, 0)` — because the follow-up upsert
throws before overwriting them. -/
theorem handleUserMessage_overwrite_counterexample :
    ((getConversation (handleMessage envC10 ctxEx true dbC10).1 ("c1")).map
        (fun r => (r.message_count, r.total_tokens))) = some (6, 107)
    ∧ ¬ ((getConversation (handleMessage envC10 ctxEx true dbC10).1 ("c1")).map
        (fun r => (r.message_count, r.total_tokens))) = some (3 + 1, 0) := by
  refine ⟨by decide, by decide⟩

/-- C10 amended: for every `message` envelope naming an existing
conversation whose message insert succeeds, the handler then throws at the
follow-up upsert (undefined `started_at` binding): it returns the error
notification instead of an ack, and the conversation keeps the
trigger-maintained aggregates — `message_count` grown by one and
`total_tokens` grown by the message's `tokens_total` — rather than the
claimed caller-supplied overwrite. -/
theorem handleUserMessage_follow_up_throws (m : Envelope) (k : Ctx) (db dbMid : DB)
    (cid : String) (c : ConvRow)
    (htype : m.type = some tagMessage)
    (hins : insertMessage (msgDataOf m.data k) k.now db = .ok dbMid)
    (hcid : m.data.conversation_id = some cid)
    (hc : getConversation db cid = some c) :
    handleMessage m k true db
      = (dbMid, [OutMsg.errorOut ((StoreErr.bindUndefined).message) k.now])
    ∧ ∃ c', getConversation dbMid cid = some c'
      ∧ c'.message_count = c.message_count + 1
      ∧ c'.total_tokens = c.total_tokens
          + coalesceInt0 (jsOrNullInt m.data.tokens_total) := by
  have hup := followUp_upsert_throws m.data k dbMid cid hcid
  constructor
  · have hdisp : dispatch m k db
        = (dbMid, [], some StoreErr.bindUndefined) := by
      unfold dispatch
      rw [htype]
      rw [if_neg (by simp [tagMessage, tagConversation]), if_pos rfl]
      unfold handleUserMessage
      rw [hins]
      simp only [hup, exceptToPair]
    simp [handleMessage, hdisp]
  · rcases insertMessage_ok_spec (msgDataOf m.data k) k.now db dbMid cid
      (by simpa [msgDataOf] using hcid) hins with ⟨ts, hts, hconv⟩
    have hrid : c.id = cid := by
      have := List.find?_some hc
      simpa using this
    refine ⟨{ c with message_count := c.message_count + 1,
                     total_tokens := c.total_tokens
                       + coalesceInt0 (jsOrNullInt (msgDataOf m.data k).tokens_total),
                     last_activity := ts, updated_at := k.now }, ?_, by simp, by simp [msgDataOf]⟩
    unfold getConversation
    rw [hconv]
    rw [find?_map_update db.conversations cid
      (fun q => { q with message_count := q.message_count + 1,
                         total_tokens := q.total_tokens
                           + coalesceInt0 (jsOrNullInt (msgDataOf m.data k).tokens_total),
                         last_activity := ts, updated_at := k.now }) (fun _ => rfl)]
    have hc' : db.conversations.find? (fun q => q.id == cid) = some c := hc
    rw [hc']
    simp [hrid]

/-- C10 amended witness: the concrete scenario of the counterexample, run
through the general theorem. -/
theorem handleUserMessage_follow_up_throws_witness :
    handleMessage envC10 ctxEx true dbC10
      = (dbMidC10, [OutMsg.errorOut ((StoreErr.bindUndefined).message) ctxEx.now])
    ∧ ∃ c', getConversation dbMidC10 ("c1") = some c'
      ∧ c'.message_count = convC10.message_count + 1
      ∧ c'.total_tokens = convC10.total_tokens
          + coalesceInt0 (jsOrNullInt envC10.data.tokens_total) :=
  handleUserMessage_follow_up_throws envC10 ctxEx dbC10 dbMidC10 ("c1") convC10
    rfl rfl rfl rfl

end LLMTracker
